import Mathlib

/-!
Shallow embedding of the mimir-homeassistant-ai-builder repository
(Python), covering the operating-mode manager, the tool registry with its
rate limiter, the conversation manager's planning loop and history, the
audit-history reload, the websocket reconnect backoff, and the LLM
providers' stop-reason maps.  Wall-clock instants (time.time /
time.monotonic) are modelled as rationals; Python dicts that are used as
ordered lookup tables are modelled as association lists.
-/

namespace Mimir

/-- Python str.startswith over explicit character lists:
charsLead pat s is true when pat is an initial run of s. -/
def charsLead : List Char → List Char → Bool
  | [], _ => true
  | _ :: _, [] => false
  | p :: ps, t :: ts => p == t && charsLead ps ts

/-- Python substring membership (pat in s) over character lists. -/
def charsIn (p : List Char) : List Char → Bool
  | [] => p.isEmpty
  | t :: ts => charsLead p (t :: ts) || charsIn p ts

/-- Python s.startswith(pre). -/
def pyStartswith (s pre : String) : Bool := charsLead pre.data s.data

/-- Python membership test: pat in s. -/
def pyIn (pat s : String) : Bool := charsIn pat.data s.data

/-- Python str.lower (agrees with Char.toLower on the ASCII command
phrases the code compares against). -/
def pyLower (s : String) : String := s.map Char.toLower

/-- Lowercased and stripped message, as computed at the top of
parse_mode_command and is_mode_query (message.lower().strip()). -/
def pyLowerStrip (s : String) : String := (pyLower s).trim

/-- mimir.app.utils.mode_manager.OperatingMode. -/
inductive OperatingMode where
  | chat
  | normal
  | yolo
deriving DecidableEq, Repr

/-- mimir.app.utils.mode_manager.ToolCategory. -/
inductive ToolCategory where
  | read_only
  | write
  | destructive
deriving DecidableEq, Repr

/-- mimir.app.utils.mode_manager.TOOL_CATEGORIES, as an association
list in the dict's insertion order. -/
def TOOL_CATEGORIES : List (String × ToolCategory) :=
  [("get_entities", .read_only),
   ("get_entity_state", .read_only),
   ("get_automations", .read_only),
   ("get_automation_config", .read_only),
   ("get_scripts", .read_only),
   ("get_script_config", .read_only),
   ("get_scenes", .read_only),
   ("get_scene_config", .read_only),
   ("get_helpers", .read_only),
   ("get_services", .read_only),
   ("get_error_log", .read_only),
   ("get_logbook", .read_only),
   ("recall_memories", .read_only),
   ("web_search", .read_only),
   ("ha_docs_search", .read_only),
   ("hacs_search", .read_only),
   ("call_service", .write),
   ("create_automation", .write),
   ("update_automation", .write),
   ("create_script", .write),
   ("update_script", .write),
   ("create_scene", .write),
   ("update_scene", .write),
   ("create_helper", .write),
   ("store_memory", .write),
   ("rename_entity", .write),
   ("assign_entity_area", .write),
   ("assign_entity_labels", .write),
   ("delete_automation", .destructive),
   ("delete_script", .destructive),
   ("delete_scene", .destructive),
   ("delete_helper", .destructive),
   ("forget_memory", .destructive)]

/-- Association-list lookup standing for Python dict .get. -/
def alistGet {α : Type} (l : List (String × α)) (k : String) : Option α :=
  match l with
  | [] => none
  | (k0, v) :: rest => if k0 = k then some v else alistGet rest k

/-- mode_manager.get_tool_category: dict lookup defaulting to WRITE. -/
def get_tool_category (tool_name : String) : ToolCategory :=
  (alistGet TOOL_CATEGORIES tool_name).getD .write

/-- mode_manager.is_write_operation. -/
def is_write_operation (tool_name : String) : Bool :=
  get_tool_category tool_name == .write || get_tool_category tool_name == .destructive

/-- State of mode_manager.ModeManager: the yolo_duration_minutes field,
the stored _current_mode, the _yolo_activated_at timestamp and whether a
_mode_change_callback is bound. -/
structure ModeManagerState where
  yolo_duration_minutes : ℕ
  current_mode_raw : OperatingMode
  yolo_activated_at : Option ℚ
  has_callback : Bool
deriving DecidableEq, Repr

/-- ModeManager._is_yolo_expired at wall-clock time now.  Python's
`if not self._yolo_activated_at` is truthiness on a float-or-None, so
both None and 0.0 count as expired; otherwise expired when
now - activated_at >= yolo_duration_minutes * 60. -/
def is_yolo_expired (s : ModeManagerState) (now : ℚ) : Bool :=
  match s.yolo_activated_at with
  | none => true
  | some t =>
      if t = 0 then true
      else decide (now - t ≥ (s.yolo_duration_minutes : ℚ) * 60)

/-- ModeManager.current_mode read at time now: returns the visible mode,
the updated state, and how many times the mode-change callback fired
during this read (the Python property mutates state on YOLO expiry). -/
def current_mode_read (s : ModeManagerState) (now : ℚ) :
    OperatingMode × ModeManagerState × ℕ :=
  if s.current_mode_raw = .yolo ∧ is_yolo_expired s now then
    (.normal,
     { s with current_mode_raw := .normal, yolo_activated_at := none },
     if s.has_callback then 1 else 0)
  else
    (s.current_mode_raw, s, 0)

/-- Folding current_mode reads over a list of read times: final state and
the total number of mode-change callback invocations. -/
def reads_fold (s : ModeManagerState) : List ℚ → ModeManagerState × ℕ
  | [] => (s, 0)
  | t :: ts =>
      let r := current_mode_read s t
      let rest := reads_fold r.2.1 ts
      (rest.1, r.2.2 + rest.2)

/-- The status message built by ModeManager.set_mode for YOLO mode. -/
def yolo_mode_message (minutes : ℕ) : String :=
  "YOLO mode activated for " ++ toString minutes ++
    " minutes. All actions will be auto-approved. Be careful!"

/-- The status message built by ModeManager.set_mode for Chat mode. -/
def chat_mode_message : String :=
  "Chat mode activated. I can analyze and recommend, but I won't make " ++
    "any changes until you switch to Normal or YOLO mode."

/-- The status message built by ModeManager.set_mode for Normal mode. -/
def normal_mode_message : String :=
  "Normal mode activated. I'll ask for confirmation before making " ++
    "significant changes."

/-- ModeManager.set_mode at time now: new state, returned status message,
and number of mode-change callback invocations (the callback fires only
when a callback is bound and old_mode != mode). -/
def set_mode (s : ModeManagerState) (mode : OperatingMode) (now : ℚ) :
    ModeManagerState × String × ℕ :=
  let old_mode := s.current_mode_raw
  let activated : Option ℚ := if mode = .yolo then some now else none
  let message :=
    match mode with
    | .yolo => yolo_mode_message s.yolo_duration_minutes
    | .chat => chat_mode_message
    | .normal => normal_mode_message
  let fired := if s.has_callback ∧ old_mode ≠ mode then 1 else 0
  ({ s with current_mode_raw := mode, yolo_activated_at := activated },
   message, fired)

/-- The block message built by ModeManager.check_tool_allowed in Chat
mode. -/
def chat_block_message (tool_name : String) : String :=
  "I'm in Chat mode and cannot execute '" ++ tool_name ++
    "'. Switch to Normal mode ('enable normal mode') or YOLO mode " ++
    "('enable yolo mode') if you want me to make changes."

/-- ModeManager.check_tool_allowed at time now: (allowed, message) plus
the state left behind by the current_mode read it performs. -/
def check_tool_allowed (s : ModeManagerState) (now : ℚ) (tool_name : String) :
    Bool × String × ModeManagerState :=
  let r := current_mode_read s now
  let category := get_tool_category tool_name
  if category = .read_only then (true, "", r.2.1)
  else if r.1 = .chat then (false, chat_block_message tool_name, r.2.1)
  else (true, "", r.2.1)

/-- The chat_patterns list of ModeManager.parse_mode_command. -/
def chat_patterns : List String :=
  ["enable chat mode",
   "switch to chat mode",
   "activate chat mode",
   "chat mode",
   "read only mode",
   "read-only mode"]

/-- The normal_patterns list of ModeManager.parse_mode_command. -/
def normal_patterns : List String :=
  ["enable normal mode",
   "switch to normal mode",
   "activate normal mode",
   "normal mode",
   "disable yolo mode",
   "disable yolo",
   "exit yolo mode"]

/-- The yolo_patterns list of ModeManager.parse_mode_command. -/
def yolo_patterns : List String :=
  ["enable yolo mode",
   "switch to yolo mode",
   "activate yolo mode",
   "yolo mode",
   "yolo"]

/-- ModeManager.parse_mode_command: lowercase and strip the message, then
scan chat_patterns, normal_patterns, yolo_patterns in that order,
returning on the first pattern that is a substring. -/
def parse_mode_command (message : String) : Option OperatingMode :=
  let message_lower := pyLowerStrip message
  if chat_patterns.any (fun p => pyIn p message_lower) then some .chat
  else if normal_patterns.any (fun p => pyIn p message_lower) then some .normal
  else if yolo_patterns.any (fun p => pyIn p message_lower) then some .yolo
  else none

/-- The mode-query phrases of ModeManager.is_mode_query. -/
def query_patterns : List String :=
  ["what mode",
   "which mode",
   "current mode",
   "what's my mode",
   "what is my mode",
   "mode status"]

/-- ModeManager.is_mode_query. -/
def is_mode_query (message : String) : Bool :=
  query_patterns.any (fun p => pyIn p (pyLowerStrip message))

/-- mimir.app.utils.rate_limiter.OperationType. -/
inductive OperationType where
  | deletion
  | modification
deriving DecidableEq, Repr

/-- State of rate_limiter.RateLimiter: the two hourly limits, the window
length in seconds, and the two timestamp deques (oldest first). -/
structure RateLimiterState where
  deletions_per_hour : ℕ
  modifications_per_hour : ℕ
  window_seconds : ℕ
  deletion_times : List ℚ
  modification_times : List ℚ
deriving DecidableEq, Repr

/-- RateLimiter._cleanup_old_entries: pop entries from the front while
they are older than now - window_seconds. -/
def cleanup_old_entries (window_seconds : ℕ) (now : ℚ) (times : List ℚ) :
    List ℚ :=
  times.dropWhile (fun t => t < now - (window_seconds : ℚ))

/-- The deletion-branch denial message of RateLimiter.check_allowed. -/
def deletion_limit_message (count limit : ℕ) : String :=
  "Rate limit exceeded: " ++ toString count ++ "/" ++ toString limit ++
    " deletions in the last hour. Please wait before deleting more items."

/-- The modification-branch denial message of RateLimiter.check_allowed. -/
def modification_limit_message (count limit : ℕ) : String :=
  "Rate limit exceeded: " ++ toString count ++ "/" ++ toString limit ++
    " modifications in the last hour. Please wait before making more changes."

/-- RateLimiter.check_allowed at time now: (allowed, message) plus the
state left behind by the cleanup it performs. -/
def check_allowed (s : RateLimiterState) (operation_type : OperationType)
    (now : ℚ) : Bool × String × RateLimiterState :=
  match operation_type with
  | .deletion =>
      let times := cleanup_old_entries s.window_seconds now s.deletion_times
      let s2 := { s with deletion_times := times }
      if times.length ≥ s.deletions_per_hour then
        (false, deletion_limit_message times.length s.deletions_per_hour, s2)
      else (true, "", s2)
  | .modification =>
      let times := cleanup_old_entries s.window_seconds now s.modification_times
      let s2 := { s with modification_times := times }
      if times.length ≥ s.modifications_per_hour then
        (false,
         modification_limit_message times.length s.modifications_per_hour, s2)
      else (true, "", s2)

/-- RateLimiter.record_operation at time now. -/
def record_operation (s : RateLimiterState) (operation_type : OperationType)
    (now : ℚ) : RateLimiterState :=
  match operation_type with
  | .deletion => { s with deletion_times := s.deletion_times ++ [now] }
  | .modification =>
      { s with modification_times := s.modification_times ++ [now] }

/-- rate_limiter.TOOL_OPERATION_TYPES, in the dict's insertion order. -/
def TOOL_OPERATION_TYPES : List (String × OperationType) :=
  [("delete_automation", .deletion),
   ("delete_script", .deletion),
   ("delete_scene", .deletion),
   ("delete_helper", .deletion),
   ("forget_memory", .deletion),
   ("create_automation", .modification),
   ("update_automation", .modification),
   ("create_script", .modification),
   ("update_script", .modification),
   ("create_scene", .modification),
   ("update_scene", .modification),
   ("create_helper", .modification),
   ("store_memory", .modification),
   ("call_service", .modification)]

/-- rate_limiter.get_operation_type: dict lookup, None when the tool is
not rate limited. -/
def get_operation_type (tool_name : String) : Option OperationType :=
  alistGet TOOL_OPERATION_TYPES tool_name

/-- The behaviour of one BaseTool.validate_and_execute call: it either
returns a result string or raises an exception carrying a message. -/
def ToolBehavior : Type := Except String String

/-- One invocation of the registry's execution callback, with the
arguments ToolRegistry.execute passes:
(tool_name, params, result, duration_ms, success, error). -/
structure CallbackRecord where
  tool_name : String
  params : List (String × String)
  result : String
  duration_ms : ℤ
  success : Bool
  error : Option String
deriving DecidableEq, Repr

/-- State of tools.registry.ToolRegistry: the registered tools (with the
behaviour each would exhibit on this call), whether an execution callback
is bound, the optional rate limiter, the rate-limiting flag, and the
optional mode manager. -/
structure RegistryState where
  tools : List (String × ToolBehavior)
  on_execute : Bool
  rate_limiter : Option RateLimiterState
  rate_limiting_enabled : Bool
  mode_manager : Option ModeManagerState

/-- ToolRegistry.has. -/
def registry_has (st : RegistryState) (name : String) : Bool :=
  (alistGet st.tools name).isSome

/-- The operating-mode gate at the top of ToolRegistry.execute: when a
mode manager is set, run check_tool_allowed; a denial produces the early
return value "Error: <message>". -/
def mode_gate (st : RegistryState) (name : String) (now : ℚ) :
    RegistryState × Option String :=
  match st.mode_manager with
  | none => (st, none)
  | some mm =>
      let r := check_tool_allowed mm now name
      ({ st with mode_manager := some r.2.2 },
       if r.1 then none else some r.2.1)

/-- The rate-limit gate of ToolRegistry.execute: when the tool has an
operation type, a rate limiter is configured and rate limiting is
enabled, run check_allowed; a denial produces the early return value
"Error: <message>". -/
def rate_gate (st : RegistryState) (name : String) (now : ℚ) :
    RegistryState × Option String :=
  match get_operation_type name, st.rate_limiter with
  | some op, some rl =>
      if st.rate_limiting_enabled then
        let r := check_allowed rl op now
        ({ st with rate_limiter := some r.2.2 },
         if r.1 then none else some r.2.1)
      else (st, none)
  | _, _ => (st, none)

/-- The result of a ToolRegistry.execute call that did not raise: the
returned string, the updated registry state, and the execution-callback
invocations that occurred during the call. -/
structure ExecuteOutcome where
  result : String
  state : RegistryState
  callbacks : List CallbackRecord

/-- The success flag computed in ToolRegistry.execute's try block:
`not result.startswith("Error:") if result else True` on a normal
return, False when the tool raised. -/
def execute_success_flag (behavior : ToolBehavior) : Bool :=
  match behavior with
  | .ok r => if r ≠ "" then !(pyStartswith r "Error:") else true
  | .error _ => false

/-- The result string assigned in ToolRegistry.execute's try block: the
tool's return value, or "Error executing <name>: <e>" when the tool
raised. -/
def execute_result_string (name : String) (behavior : ToolBehavior) :
    String :=
  match behavior with
  | .ok r => r
  | .error e => "Error executing " ++ name ++ ": " ++ e

/-- The error_msg variable of ToolRegistry.execute: None on a normal
return, str(e) when the tool raised. -/
def execute_error_field (behavior : ToolBehavior) : Option String :=
  match behavior with
  | .ok _ => none
  | .error e => some e

/-- ToolRegistry.execute(name, kwargs) with wall-clock time now and a
monotonic-clock elapsed time for the tool call.  Raising
ToolNotFoundError (from get) is modelled as Except.error with the
exception's message; every other path returns an ExecuteOutcome.
duration_ms is int(elapsed * 1000), i.e. the floor for the nonnegative
elapsed values a monotonic clock yields. -/
def registry_execute (st : RegistryState) (name : String)
    (kwargs : List (String × String)) (now elapsed : ℚ) :
    Except String ExecuteOutcome :=
  match alistGet st.tools name with
  | none => .error ("Tool not found: " ++ name)
  | some behavior =>
      let g1 := mode_gate st name now
      match g1.2 with
      | some msg => .ok ⟨"Error: " ++ msg, g1.1, []⟩
      | none =>
          let g2 := rate_gate g1.1 name now
          match g2.2 with
          | some msg => .ok ⟨"Error: " ++ msg, g2.1, []⟩
          | none =>
              let st2 := g2.1
              let success := execute_success_flag behavior
              let result := execute_result_string name behavior
              let error_msg := execute_error_field behavior
              let st3 :=
                match behavior, get_operation_type name, st2.rate_limiter with
                | .ok _, some op, some rl =>
                    if success then
                      { st2 with rate_limiter := some (record_operation rl op now) }
                    else st2
                | _, _, _ => st2
              let duration_ms : ℤ := ⌊elapsed * 1000⌋
              let callbacks :=
                if st2.on_execute then
                  [⟨name, kwargs, result, duration_ms, success, error_msg⟩]
                else []
              .ok ⟨if result ≠ "" then result
                   else "Error executing " ++ name ++ ": No result returned",
                   st3, callbacks⟩

/-- Both early-return gates of ToolRegistry.execute let the call reach
the tool: the mode gate and then the rate gate report no denial. -/
def gates_allow (st : RegistryState) (name : String) (now : ℚ) : Prop :=
  (mode_gate st name now).2 = none ∧
    (rate_gate (mode_gate st name now).1 name now).2 = none

/-- llm.types.ToolCall: id, name, and the argument mapping. -/
structure ToolCallModel where
  id : String
  name : String
  arguments : List (String × String)
deriving DecidableEq, Repr

/-- Conversation messages as built by the Message classmethods the
conversation manager uses: Message.user, Message.assistant (content
defaulted to "" via `content or ""`), and Message.tool_result. -/
inductive Msg where
  | user (content : String)
  | assistant (content : String) (tool_calls : List ToolCallModel)
  | tool_result (tool_call_id : String) (content : String) (is_error : Bool)
deriving DecidableEq, Repr

/-- One llm.types.Response as the planning loop inspects it: the content
(None or a string) and the tool calls (has_tool_calls is tool_calls
being a nonempty list). -/
structure LLMResponse where
  content : Option String
  tool_calls : List ToolCallModel
deriving DecidableEq, Repr

/-- ConversationManager._trim_history applied to a message list: when
the list is longer than max_history, keep the last max_history
entries. -/
def trim_history (max_history : ℕ) (messages : List Msg) : List Msg :=
  if messages.length > max_history then
    messages.drop (messages.length - max_history)
  else messages

/-- ConversationManager._execute_tool_calls on one tool call: check
registry.has first; on a registered tool run ToolRegistry.execute and
catch any exception into "Error executing <name>: <e>" with
is_error = True; on an unknown tool produce
"Error: Unknown tool '<name>'" without calling execute; otherwise
is_error is result.startswith("Error:"). -/
def execute_tool_call (st : RegistryState) (c : ToolCallModel)
    (now elapsed : ℚ) : Msg × RegistryState :=
  if registry_has st c.name then
    match registry_execute st c.name c.arguments now elapsed with
    | .ok out =>
        (Msg.tool_result c.id out.result (pyStartswith out.result "Error:"),
         out.state)
    | .error e =>
        (Msg.tool_result c.id ("Error executing " ++ c.name ++ ": " ++ e)
          true, st)
  else
    (Msg.tool_result c.id ("Error: Unknown tool '" ++ c.name ++ "'") true, st)

/-- ConversationManager._execute_tool_calls over a list of tool calls,
threading the registry state.  The wall-clock and elapsed times of the
individual calls are abstracted to one pair, which the history and
control-flow claims do not depend on. -/
def execute_tool_calls (st : RegistryState) (calls : List ToolCallModel)
    (now elapsed : ℚ) : List Msg × RegistryState :=
  match calls with
  | [] => ([], st)
  | c :: rest =>
      let r := execute_tool_call st c now elapsed
      let rr := execute_tool_calls r.2 rest now elapsed
      (r.1 :: rr.1, rr.2)

/-- The fixed sentence returned when the planning loop exceeds
max_tool_iterations. -/
def limit_response : String :=
  "I've been working on this for a while and hit a limit. " ++
    "Here's what I found so far - let me know if you need me to continue."

/-- The fallback sentence for an empty LLM response. -/
def fallback_response : String :=
  "I apologize, but I couldn't generate a response. Please try again."

/-- The while loop of ConversationManager.process_message.  responses is
the stream of provider Responses (the i-th complete call returns
responses i); fuel is the number of remaining iterations
(max_tool_iterations - iterations).  Returns the response text, the
final message history, and the number of complete calls made. -/
def pm_loop (st : RegistryState) (messages : List Msg)
    (responses : ℕ → LLMResponse) (idx : ℕ) (now elapsed : ℚ) :
    ℕ → String × List Msg × ℕ
  | 0 => (limit_response, messages, 0)
  | fuel + 1 =>
      let response := responses idx
      if response.tool_calls ≠ [] then
        let messages2 := messages ++
          [Msg.assistant ((response.content).getD "") response.tool_calls]
        let r := execute_tool_calls st response.tool_calls now elapsed
        let rest := pm_loop r.2 (messages2 ++ r.1) responses (idx + 1)
          now elapsed fuel
        (rest.1, rest.2.1, rest.2.2 + 1)
      else
        match response.content with
        | some c =>
            if c ≠ "" then (c, messages ++ [Msg.assistant c []], 1)
            else (fallback_response, messages, 1)
        | none => (fallback_response, messages, 1)

/-- ConversationManager.process_message on the non-mode-command path
(no mode manager configured, audit logging absent): append the user
message, trim the history once, then run the planning loop. -/
def process_message (st : RegistryState) (history : List Msg)
    (user_message : String) (responses : ℕ → LLMResponse)
    (max_history max_tool_iterations : ℕ) (now elapsed : ℚ) :
    String × List Msg × ℕ :=
  let messages := trim_history max_history (history ++ [Msg.user user_message])
  pm_loop st messages responses 0 now elapsed max_tool_iterations

/-- One row of the audit_logs table as load_history_from_audit reads it:
the user_id column, the message_type, and the content. -/
structure AuditLogEntry where
  user_id : Option String
  message_type : String
  content : String
deriving DecidableEq, Repr

/-- AuditRepository.get_recent_logs with no source or message_type
filter, over the table in timestamp-descending order: LIMIT limit
OFFSET offset. -/
def get_recent_logs (table_desc : List AuditLogEntry) (limit offset : ℕ) :
    List AuditLogEntry :=
  (table_desc.drop offset).take limit

/-- The filter step of ConversationManager.load_history_from_audit:
user rows become Message.user, assistant rows become
Message.assistant, everything else is dropped. -/
def audit_row_to_message (l : AuditLogEntry) : Option Msg :=
  if l.message_type = "user" then some (Msg.user l.content)
  else if l.message_type = "assistant" then some (Msg.assistant l.content [])
  else none

/-- ConversationManager.load_history_from_audit(limit): fetch the most
recent limit*2 audit rows (no user filter: get_recent_logs is called
with only limit), keep user/assistant rows in chronological order,
keep the last limit of them, and make that the new history.  Returns
the new history and the reported count. -/
def load_history_from_audit (table_desc : List AuditLogEntry) (limit : ℕ) :
    List Msg × ℕ :=
  let logs := get_recent_logs table_desc (limit * 2) 0
  let messages_to_load := logs.reverse.filterMap audit_row_to_message
  let messages_to_load :=
    if messages_to_load.length > limit then
      messages_to_load.drop (messages_to_load.length - limit)
    else messages_to_load
  (messages_to_load, messages_to_load.length)

/-- The sleep sequence of HomeAssistantWebSocket.run, starting from the
given _reconnect_delay.  outcomes lists the connect() results of the
successive loop iterations (true = the auth_ok handshake succeeded).
connect resets the delay to 1 on auth_ok; every iteration then sleeps
the current delay and doubles it, capped at 60
(_max_reconnect_delay). -/
def run_sleeps (delay : ℚ) : List Bool → List ℚ
  | [] => []
  | auth_ok :: rest =>
      let d := if auth_ok then 1 else delay
      d :: run_sleeps (min (2 * d) 60) rest

/-- llm.types.StopReason. -/
inductive StopReason where
  | end_turn
  | tool_use
  | max_tokens
  | stop_sequence
deriving DecidableEq, Repr

/-- The finish_reason_map lookup of OpenAIProvider._parse_response
(identical in LocalProvider._parse_response), with END_TURN as the
dict-.get default. -/
def openai_finish_reason_map (finish_reason : String) : StopReason :=
  if finish_reason = "stop" then .end_turn
  else if finish_reason = "tool_calls" then .tool_use
  else if finish_reason = "length" then .max_tokens
  else .end_turn

/-- The stop_reason_map lookup of AnthropicProvider._parse_response,
with END_TURN as the dict-.get default. -/
def anthropic_stop_reason_map (stop_reason : String) : StopReason :=
  if stop_reason = "end_turn" then .end_turn
  else if stop_reason = "tool_use" then .tool_use
  else if stop_reason = "max_tokens" then .max_tokens
  else if stop_reason = "stop_sequence" then .stop_sequence
  else .end_turn

/-- The finish-reason branch of GeminiProvider._parse_response: tool
calls present force TOOL_USE, then the numeric finish reason 1 (STOP)
gives END_TURN, 2 (MAX_TOKENS) gives MAX_TOKENS, anything else
END_TURN. -/
def gemini_stop_reason (has_tool_calls : Bool) (finish_reason : ℤ) :
    StopReason :=
  if has_tool_calls then .tool_use
  else if finish_reason = 1 then .end_turn
  else if finish_reason = 2 then .max_tokens
  else .end_turn

/-- The stop-reason computation of OpenAIProvider.stream:
finish_reason_map.get(finish_reason or "stop", END_TURN), where None
and the empty string fall back to "stop". -/
def openai_stream_stop_reason (finish_reason : Option String) : StopReason :=
  openai_finish_reason_map
    (match finish_reason with
     | none => "stop"
     | some f => if f = "" then "stop" else f)

/-- The last n elements of a list (Python l[-n:] for n > 0, and all of
l when n >= len(l)). -/
def lastN {α : Type} (n : ℕ) (l : List α) : List α :=
  l.drop (l.length - n)

/-- Modelled from the spec sentence for C8 as amended: fetch the most
recent 2·limit audit rows (of any user), keep user and assistant rows,
reverse to chronological order, keep the last limit of them. -/
def load_history_spec (table_desc : List AuditLogEntry) (limit : ℕ) :
    List Msg :=
  lastN limit
    (((table_desc.take (2 * limit)).reverse).filterMap audit_row_to_message)

/-- A registry holding one destructive tool, an execution callback, and
a mode manager sitting in Chat mode: the configuration of the C1
counterexample. -/
def chat_blocked_registry : RegistryState :=
  { tools := [("delete_automation", Except.ok "done")]
    on_execute := true
    rate_limiter := none
    rate_limiting_enabled := true
    mode_manager := some ⟨10, .chat, none, false⟩ }

/-- A registry holding one destructive tool, an execution callback, a
fresh rate limiter and a mode manager in Normal mode. -/
def normal_registry : RegistryState :=
  { tools := [("delete_automation", Except.ok "done")]
    on_execute := true
    rate_limiter := some ⟨5, 20, 3600, [], []⟩
    rate_limiting_enabled := true
    mode_manager := some ⟨10, .normal, none, false⟩ }

/-- A registry with no registered tools and no callback, limiter or mode
manager. -/
def empty_registry : RegistryState :=
  { tools := []
    on_execute := false
    rate_limiter := none
    rate_limiting_enabled := true
    mode_manager := none }

/-- A provider that always answers with plain content and no tool
calls. -/
def plain_responses : ℕ → LLMResponse := fun _ => ⟨some "hi", []⟩

/-- A provider that always answers with a tool call. -/
def tool_call_responses : ℕ → LLMResponse :=
  fun _ => ⟨none, [⟨"call-1", "foo", []⟩]⟩

theorem keep_last_eq_lastN {α : Type} (n : ℕ) (l : List α) :
    (if l.length > n then l.drop (l.length - n) else l) = lastN n l := by
  unfold lastN
  split
  · rfl
  · rename_i h
    rw [Nat.sub_eq_zero_of_le (Nat.le_of_not_lt h), List.drop_zero]

/-- Claim C7 counterexample: the Anthropic adapter maps the vendor stop
reason "stop_sequence" to STOP_SEQUENCE, not to END_TURN, refuting the
claim that every vendor value outside the three listed pairs maps to
end_turn. -/
theorem C7_counterexample :
    anthropic_stop_reason_map "stop_sequence" = StopReason.stop_sequence ∧
      StopReason.stop_sequence ≠ StopReason.end_turn := by decide

/-- Claim C7, amended: each adapter maps only its own vendor's finish
values.  The OpenAI (and local) adapter maps stop to end_turn,
tool_calls to tool_use, length to max_tokens and everything else to
end_turn; the Anthropic adapter maps end_turn, tool_use and max_tokens
to themselves, stop_sequence to stop_sequence and everything else to
end_turn; the Gemini adapter maps responses carrying function calls to
tool_use, numeric finish reason 1 to end_turn, 2 to max_tokens and
everything else to end_turn; the OpenAI stream substitutes stop for a
missing finish reason. -/
theorem C7_stop_reason_maps :
    openai_finish_reason_map "stop" = StopReason.end_turn ∧
    openai_finish_reason_map "tool_calls" = StopReason.tool_use ∧
    openai_finish_reason_map "length" = StopReason.max_tokens ∧
    (∀ r : String, r ≠ "stop" → r ≠ "tool_calls" → r ≠ "length" →
      openai_finish_reason_map r = StopReason.end_turn) ∧
    anthropic_stop_reason_map "end_turn" = StopReason.end_turn ∧
    anthropic_stop_reason_map "tool_use" = StopReason.tool_use ∧
    anthropic_stop_reason_map "max_tokens" = StopReason.max_tokens ∧
    anthropic_stop_reason_map "stop_sequence" = StopReason.stop_sequence ∧
    (∀ r : String, r ≠ "end_turn" → r ≠ "tool_use" → r ≠ "max_tokens" →
      r ≠ "stop_sequence" →
      anthropic_stop_reason_map r = StopReason.end_turn) ∧
    (∀ f : ℤ, gemini_stop_reason true f = StopReason.tool_use) ∧
    gemini_stop_reason false 1 = StopReason.end_turn ∧
    gemini_stop_reason false 2 = StopReason.max_tokens ∧
    (∀ f : ℤ, f ≠ 1 → f ≠ 2 →
      gemini_stop_reason false f = StopReason.end_turn) ∧
    openai_stream_stop_reason none = StopReason.end_turn := by
  refine ⟨by decide, by decide, by decide, ?_, by decide, by decide,
    by decide, by decide, ?_, ?_, by decide, by decide, ?_, by decide⟩
  · intro r h1 h2 h3
    simp [openai_finish_reason_map, h1, h2, h3]
  · intro r h1 h2 h3 h4
    simp [anthropic_stop_reason_map, h1, h2, h3, h4]
  · intro f
    simp [gemini_stop_reason]
  · intro f h1 h2
    simp [gemini_stop_reason, h1, h2]

theorem C7_stop_reason_maps_witness :
    openai_finish_reason_map "banana" = StopReason.end_turn ∧
      anthropic_stop_reason_map "length" = StopReason.end_turn ∧
      gemini_stop_reason false 7 = StopReason.end_turn := by
  obtain ⟨-, -, -, h1, -, -, -, -, h2, -, -, -, h3, -⟩ := C7_stop_reason_maps
  exact ⟨h1 "banana" (by decide) (by decide) (by decide),
    h2 "length" (by decide) (by decide) (by decide) (by decide),
    h3 7 (by decide) (by decide)⟩

/-- Claim C8 counterexample: load_history_from_audit takes no user_id
and applies no user filter, so for any purported user (e.g. "alice") the
rebuilt history still contains the audit row attributed to "bob". -/
theorem C8_counterexample :
    load_history_from_audit [⟨some "bob", "user", "hello from bob"⟩] 5 =
      ([Msg.user "hello from bob"], 1) := by decide

/-- Claim C8, amended: load_history_from_audit(limit) fetches the most
recent 2*limit audit entries of ALL users (the function has no user
parameter and get_recent_logs is called without a user filter), keeps
only entries of message_type user and assistant, reverses them into
chronological order, truncates to the most recent limit entries, and
replaces the in-memory history with the result. -/
theorem C8_load_history (table_desc : List AuditLogEntry) (limit : ℕ) :
    (load_history_from_audit table_desc limit).1 =
        load_history_spec table_desc limit ∧
      (load_history_from_audit table_desc limit).2 =
        (load_history_spec table_desc limit).length := by
  have h : load_history_from_audit table_desc limit =
      (load_history_spec table_desc limit,
       (load_history_spec table_desc limit).length) := by
    simp only [load_history_from_audit, load_history_spec, get_recent_logs,
      List.drop_zero, keep_last_eq_lastN, Nat.mul_comm limit 2]
  rw [h]
  exact ⟨rfl, rfl⟩

/-- Claim C6 counterexample: from a fresh start, the sleep that follows
the first connect failure (K = 1) lasts 1 second, not
min(2^1, 60) = 2 seconds, because run sleeps the stored backoff before
doubling it. -/
theorem C6_counterexample :
    run_sleeps 1 [false, false] = [1, 2] ∧
      (1:ℚ) ≠ min ((2:ℚ)^1) 60 := by
  constructor
  · norm_num [run_sleeps, min_def]
  · norm_num [min_def]

theorem min_two_pow_step (k : ℕ) :
    min (2 * min ((2:ℚ)^k) 60) 60 = min ((2:ℚ)^(k+1)) 60 := by
  rcases le_total ((2:ℚ)^k) 60 with h | h
  · rw [min_eq_left h, show (2:ℚ) * 2^k = 2^(k+1) from by ring]
  · have h3 : (60:ℚ) ≤ 2^(k+1) :=
      le_trans h (pow_le_pow_right₀ (by norm_num) (Nat.le_succ k))
    rw [min_eq_right h, min_eq_right h3,
      min_eq_right (by norm_num : (60:ℚ) ≤ 2 * 60)]

theorem run_sleeps_replicate (n : ℕ) :
    ∀ k : ℕ, run_sleeps (min ((2:ℚ)^k) 60) (List.replicate n false) =
      (List.range n).map (fun i => min ((2:ℚ)^(k+i)) 60) := by
  induction n with
  | zero => intro k; simp [run_sleeps]
  | succ n ih =>
      intro k
      rw [List.replicate_succ]
      simp only [run_sleeps, Bool.false_eq_true, if_false]
      rw [min_two_pow_step k, ih (k+1)]
      rw [List.range_succ_eq_map, List.map_cons, List.map_map]
      refine congrArg₂ _ (by simp) ?_
      refine List.map_congr_left ?_
      intro i _
      simp only [Function.comp_apply]
      have : k + 1 + i = k + (i + 1) := by omega
      rw [this]

/-- Claim C6, amended: the sleep precedes the doubling, so from the
initial backoff of 1 second, after K consecutive connect failures the
K-th sleep (the one before the next reconnect attempt) is
min(2^(K-1), 60) seconds — the sleep sequence is
min(2^0,60), min(2^1,60), ...; a successful auth_ok handshake resets
the stored backoff to 1, so the sleep after the connection is lost is 1
second and K subsequent consecutive failures sleep
min(2^1,60), ..., min(2^K,60). -/
theorem C6_backoff (n : ℕ) (d : ℚ) :
    run_sleeps 1 (List.replicate n false) =
        (List.range n).map (fun i => min ((2:ℚ)^i) 60) ∧
      run_sleeps d (true :: List.replicate n false) =
        1 :: (List.range n).map (fun i => min ((2:ℚ)^(i+1)) 60) := by
  constructor
  · have h := run_sleeps_replicate n 0
    rw [show min ((2:ℚ)^0) 60 = 1 from by norm_num [min_def]] at h
    rw [h]
    simp
  · simp only [run_sleeps, if_true]
    have h := run_sleeps_replicate n 1
    rw [show min ((2:ℚ)^1) 60 = min (2 * 1) 60 from by norm_num] at h
    rw [h]
    refine congrArg _ ?_
    refine List.map_congr_left ?_
    intro i _
    rw [Nat.add_comm 1 i]

theorem any_pat_iff (l : List String) (m : String) :
    l.any (fun p => pyIn p m) = true ↔ ∃ p ∈ l, pyIn p m = true := by
  simp

theorem any_pat_false_iff (l : List String) (m : String) :
    l.any (fun p => pyIn p m) = false ↔ ∀ p ∈ l, pyIn p m = false := by
  simp [List.any_eq_false]

/-- Claim C9: the mode-command parser matches its fixed phrases by
substring over the lowercased (hence case-insensitive), stripped
message and evaluates the groups in the order CHAT, then NORMAL
(whose phrase list includes "disable yolo"), then YOLO (whose list
includes the bare substring "yolo"); if no phrase matches, the message
is not a mode command. -/
theorem C9_parse_order (message : String) :
    ("disable yolo" ∈ normal_patterns ∧ "yolo" ∈ yolo_patterns) ∧
    (parse_mode_command message = some OperatingMode.chat ↔
      ∃ p ∈ chat_patterns, pyIn p (pyLowerStrip message) = true) ∧
    (parse_mode_command message = some OperatingMode.normal ↔
      (∀ p ∈ chat_patterns, pyIn p (pyLowerStrip message) = false) ∧
        ∃ p ∈ normal_patterns, pyIn p (pyLowerStrip message) = true) ∧
    (parse_mode_command message = some OperatingMode.yolo ↔
      (∀ p ∈ chat_patterns, pyIn p (pyLowerStrip message) = false) ∧
        (∀ p ∈ normal_patterns, pyIn p (pyLowerStrip message) = false) ∧
        ∃ p ∈ yolo_patterns, pyIn p (pyLowerStrip message) = true) ∧
    (parse_mode_command message = none ↔
      (∀ p ∈ chat_patterns, pyIn p (pyLowerStrip message) = false) ∧
        (∀ p ∈ normal_patterns, pyIn p (pyLowerStrip message) = false) ∧
        (∀ p ∈ yolo_patterns, pyIn p (pyLowerStrip message) = false)) := by
  refine ⟨⟨by decide, by decide⟩, ?_, ?_, ?_, ?_⟩ <;>
  · unfold parse_mode_command
    simp only [← any_pat_iff, ← any_pat_false_iff]
    cases h1 : chat_patterns.any (fun p => pyIn p (pyLowerStrip message)) <;>
    cases h2 : normal_patterns.any (fun p => pyIn p (pyLowerStrip message)) <;>
    cases h3 : yolo_patterns.any (fun p => pyIn p (pyLowerStrip message)) <;>
      simp [h1, h2, h3]

/-- Claim C10: set_mode fires the mode-change callback (when one is
bound) exactly when the requested mode differs from the stored mode;
set_mode(YOLO) while already in YOLO resets the activation timestamp to
now, fires no callback, and still returns the YOLO activation
message. -/
theorem C10_set_mode (s : ModeManagerState) (m : OperatingMode) (now : ℚ)
    (hcb : s.has_callback = true) :
    ((set_mode s m now).2.2 = 1 ↔ m ≠ s.current_mode_raw) ∧
      ((set_mode s m now).2.2 = 0 ↔ m = s.current_mode_raw) ∧
      (s.current_mode_raw = OperatingMode.yolo →
        set_mode s OperatingMode.yolo now =
          ({ s with
              current_mode_raw := OperatingMode.yolo
              yolo_activated_at := some now },
           yolo_mode_message s.yolo_duration_minutes, 0)) := by
  refine ⟨?_, ?_, ?_⟩
  · unfold set_mode
    by_cases h : s.current_mode_raw = m
    · simp [h]
    · simp [hcb, h]
      exact fun hh => h hh.symm
  · unfold set_mode
    by_cases h : s.current_mode_raw = m
    · simp [h]
    · simp [hcb, h]
      exact fun hh => h hh.symm
  · intro hy
    unfold set_mode
    simp [hcb, hy]

theorem C10_set_mode_witness :
    set_mode ⟨10, OperatingMode.yolo, some 100, true⟩ OperatingMode.yolo 200 =
      (⟨10, OperatingMode.yolo, some 200, true⟩,
       yolo_mode_message 10, 0) :=
  (C10_set_mode ⟨10, OperatingMode.yolo, some 100, true⟩
    OperatingMode.yolo 200 rfl).2.2 rfl

theorem reads_fold_not_yolo (s : ModeManagerState) (ts : List ℚ)
    (h : s.current_mode_raw ≠ OperatingMode.yolo) :
    reads_fold s ts = (s, 0) := by
  induction ts with
  | nil => rfl
  | cons t ts ih => simp [reads_fold, current_mode_read, h, ih]

/-- Claim C5 counterexample: with a 10-minute YOLO duration activated
at t = 100, a read at exactly t = 100 + 600 (activation plus duration)
already returns NORMAL, although that time does not exceed the
activation time plus the duration — the code's expiry bound is
inclusive, the claim's is strict. -/
theorem C5_counterexample :
    (current_mode_read ⟨10, OperatingMode.yolo, some 100, true⟩ 700).1 =
        OperatingMode.normal ∧
      (700:ℚ) ≤ 100 + 10 * 60 := by
  constructor
  · norm_num [current_mode_read, is_yolo_expired]
  · norm_num

/-- Claim C5, amended: with YOLO active since a nonzero time t0, a read
at any time with now - t0 >= 60 * duration (the boundary included)
returns NORMAL, clears the activation timestamp and fires the
mode-change callback on that read; a read strictly before the boundary
still returns YOLO and changes nothing; and over any nonempty sequence
of reads at or past the boundary the callback fires exactly once in
total. -/
theorem C5_yolo_expiry (s : ModeManagerState) (t0 : ℚ)
    (hmode : s.current_mode_raw = OperatingMode.yolo)
    (hact : s.yolo_activated_at = some t0) (ht0 : t0 ≠ 0) :
    (∀ now : ℚ, (s.yolo_duration_minutes : ℚ) * 60 ≤ now - t0 →
        current_mode_read s now =
          (OperatingMode.normal,
           { s with
              current_mode_raw := OperatingMode.normal
              yolo_activated_at := none },
           if s.has_callback then 1 else 0)) ∧
      (∀ now : ℚ, now - t0 < (s.yolo_duration_minutes : ℚ) * 60 →
        current_mode_read s now = (OperatingMode.yolo, s, 0)) ∧
      (∀ ts : List ℚ,
        (∀ t ∈ ts, (s.yolo_duration_minutes : ℚ) * 60 ≤ t - t0) →
        ts ≠ [] →
        (reads_fold s ts).2 = (if s.has_callback then 1 else 0) ∧
          (reads_fold s ts).1.current_mode_raw = OperatingMode.normal) := by
  have hexp : ∀ now : ℚ, (s.yolo_duration_minutes : ℚ) * 60 ≤ now - t0 →
      is_yolo_expired s now = true := by
    intro now h
    unfold is_yolo_expired
    rw [hact]
    simp [ht0, h]
  have hread : ∀ now : ℚ, (s.yolo_duration_minutes : ℚ) * 60 ≤ now - t0 →
      current_mode_read s now =
        (OperatingMode.normal,
         { s with
            current_mode_raw := OperatingMode.normal
            yolo_activated_at := none },
         if s.has_callback then 1 else 0) := by
    intro now h
    unfold current_mode_read
    rw [hmode, hexp now h]
    simp
  refine ⟨hread, ?_, ?_⟩
  · intro now h
    have hnexp : is_yolo_expired s now = false := by
      unfold is_yolo_expired
      rw [hact]
      simp [ht0, not_le.mpr h]
    unfold current_mode_read
    rw [hmode, hnexp]
    simp
  · intro ts hts hne
    cases ts with
    | nil => exact absurd rfl hne
    | cons t rest =>
        have h1 := hread t (hts t (List.mem_cons_self t rest))
        have h2 : reads_fold
            { s with
               current_mode_raw := OperatingMode.normal
               yolo_activated_at := none } rest =
            ({ s with
               current_mode_raw := OperatingMode.normal
               yolo_activated_at := none }, 0) :=
          reads_fold_not_yolo _ rest (by simp)
        simp [reads_fold, h1, h2]

theorem C5_yolo_expiry_witness :
    (current_mode_read ⟨10, OperatingMode.yolo, some 100, true⟩ 701).1 =
        OperatingMode.normal ∧
      (current_mode_read ⟨10, OperatingMode.yolo, some 100, true⟩ 699).1 =
        OperatingMode.yolo ∧
      (reads_fold ⟨10, OperatingMode.yolo, some 100, true⟩ [701, 800]).2 = 1 := by
  obtain ⟨ha, hb, hc⟩ := C5_yolo_expiry
    ⟨10, OperatingMode.yolo, some 100, true⟩ 100 rfl rfl (by norm_num)
  refine ⟨?_, ?_, ?_⟩
  · rw [ha 701 (by norm_num)]
  · rw [hb 699 (by norm_num)]
  · have := hc [701, 800] ?_ (by simp)
    · exact this.1
    · intro t ht
      simp at ht
      rcases ht with h | h <;> rw [h] <;> norm_num

/-- Claim C2 counterexample: for the unregistered name "foo",
ToolRegistry.execute raises ToolNotFoundError (modelled as
Except.error) instead of returning the string
"Error: Unknown tool 'foo'" — the claimed behaviour lives in
ConversationManager._execute_tool_calls, not in execute. -/
theorem C2_counterexample :
    registry_execute empty_registry "foo" [] 0 0 =
      Except.error "Tool not found: foo" := rfl

/-- Claim C2, amended: for an unregistered tool name,
ToolRegistry.execute raises ToolNotFoundError carrying
"Tool not found: <name>"; the string "Error: Unknown tool '<name>'" is
produced, without raising, one level up by
ConversationManager._execute_tool_calls, which checks registry.has
before calling execute and leaves the registry untouched. -/
theorem C2_unknown_tool (st : RegistryState) (c : ToolCallModel)
    (now elapsed : ℚ) (h : alistGet st.tools c.name = none) :
    registry_execute st c.name c.arguments now elapsed =
        Except.error ("Tool not found: " ++ c.name) ∧
      execute_tool_call st c now elapsed =
        (Msg.tool_result c.id ("Error: Unknown tool '" ++ c.name ++ "'")
          true, st) := by
  constructor
  · unfold registry_execute
    rw [h]
  · unfold execute_tool_call registry_has
    rw [h]
    rfl

theorem C2_unknown_tool_witness :
    registry_execute empty_registry "foo" [] 0 0 =
        Except.error ("Tool not found: " ++ "foo") ∧
      execute_tool_call empty_registry ⟨"id1", "foo", []⟩ 0 0 =
        (Msg.tool_result "id1" ("Error: Unknown tool '" ++ "foo" ++ "'")
          true, empty_registry) :=
  C2_unknown_tool empty_registry ⟨"id1", "foo", []⟩ 0 0 rfl

theorem pyStartswith_error (s : String) :
    pyStartswith ("Error: " ++ s) "Error:" = true := by
  unfold pyStartswith
  rw [String.data_append]
  rfl

theorem mode_gate_fields (st : RegistryState) (name : String) (now : ℚ) :
    (mode_gate st name now).1.tools = st.tools ∧
      (mode_gate st name now).1.on_execute = st.on_execute ∧
      (mode_gate st name now).1.rate_limiter = st.rate_limiter ∧
      (mode_gate st name now).1.rate_limiting_enabled =
        st.rate_limiting_enabled := by
  unfold mode_gate
  rcases hm : st.mode_manager with _ | mm <;> simp [hm]

theorem rate_gate_fields (st : RegistryState) (name : String) (now : ℚ) :
    (rate_gate st name now).1.tools = st.tools ∧
      (rate_gate st name now).1.on_execute = st.on_execute ∧
      (rate_gate st name now).1.mode_manager = st.mode_manager := by
  unfold rate_gate
  rcases ho : get_operation_type name with _ | op <;>
    rcases hr : st.rate_limiter with _ | rl <;>
      simp [ho, hr]
  split <;> simp

theorem execute_success_iff (b : ToolBehavior) :
    execute_success_flag b = true ↔
      ∃ r, b = Except.ok r ∧
        (r = "" ∨ pyStartswith r "Error:" = false) := by
  cases b with
  | ok r =>
      constructor
      · intro h
        refine ⟨r, rfl, ?_⟩
        by_cases hr : r = ""
        · exact Or.inl hr
        · refine Or.inr ?_
          simp only [execute_success_flag] at h
          rw [if_pos hr] at h
          cases hp : pyStartswith r "Error:" with
          | false => rfl
          | true => rw [hp] at h; exact absurd h (by simp)
      · rintro ⟨r2, hrr, hor⟩
        obtain rfl : r = r2 := Except.ok.inj hrr
        simp only [execute_success_flag]
        by_cases hr : r = ""
        · rw [if_neg (by simp [hr])]
        · rw [if_pos hr]
          rcases hor with h | h
          · exact absurd h hr
          · rw [h]
            rfl
  | error e =>
      constructor
      · intro h
        exact absurd h (by simp [execute_success_flag])
      · rintro ⟨r, hrr, -⟩
        exact Except.noConfusion hrr

/-- Claim C1 counterexample: a registered destructive tool with a bound
execution callback, executed while the mode manager is in Chat mode:
execute returns the denial string with zero callback invocations, not
exactly one. -/
theorem C1_counterexample :
    chat_blocked_registry.on_execute = true ∧
      registry_has chat_blocked_registry "delete_automation" = true ∧
      Except.map (fun o => o.callbacks.length)
          (registry_execute chat_blocked_registry "delete_automation" [] 0 0) =
        Except.ok 0 :=
  ⟨rfl, rfl, rfl⟩

/-- Claim C1, amended: for a registered tool with a bound execution
callback, exactly one callback invocation occurs when and only when the
mode gate and the rate limiter both allow the call; that invocation
carries duration_ms >= 0 and success true exactly when the tool
returned normally with an empty result or one not starting with
"Error:" (so an exception makes success false even though the returned
string "Error executing ..." does not start with "Error:").  When
either gate denies, execute returns early with an "Error:"-prefixed
string and the callback does not fire at all. -/
theorem C1_execute_callback (st : RegistryState) (name : String)
    (b : ToolBehavior) (kwargs : List (String × String)) (now elapsed : ℚ)
    (hreg : alistGet st.tools name = some b) (hcb : st.on_execute = true)
    (helap : 0 ≤ elapsed) :
    ∃ out, registry_execute st name kwargs now elapsed = Except.ok out ∧
      (gates_allow st name now →
        out.callbacks =
          [⟨name, kwargs, execute_result_string name b, ⌊elapsed * 1000⌋,
            execute_success_flag b, execute_error_field b⟩] ∧
        ∀ c ∈ out.callbacks,
          0 ≤ c.duration_ms ∧
            (c.success = true ↔
              ∃ r, b = Except.ok r ∧
                (r = "" ∨ pyStartswith r "Error:" = false))) ∧
      (¬ gates_allow st name now →
        out.callbacks = [] ∧ pyStartswith out.result "Error:" = true) := by
  cases hg1 : (mode_gate st name now).2 with
  | some msg =>
      refine ⟨⟨"Error: " ++ msg, (mode_gate st name now).1, []⟩, ?_, ?_, ?_⟩
      · simp only [registry_execute, hreg, hg1]
      · intro hga
        exfalso
        have h1 := hga.1
        rw [hg1] at h1
        exact Option.noConfusion h1
      · intro _
        exact ⟨rfl, pyStartswith_error msg⟩
  | none =>
    cases hg2 : (rate_gate (mode_gate st name now).1 name now).2 with
    | some msg =>
        refine ⟨⟨"Error: " ++ msg,
          (rate_gate (mode_gate st name now).1 name now).1, []⟩, ?_, ?_, ?_⟩
        · simp only [registry_execute, hreg, hg1, hg2]
        · intro hga
          exfalso
          have h2 := hga.2
          rw [hg2] at h2
          exact Option.noConfusion h2
        · intro _
          exact ⟨rfl, pyStartswith_error msg⟩
    | none =>
        have hon : (rate_gate (mode_gate st name now).1 name now).1.on_execute
            = true := by
          rw [(rate_gate_fields (mode_gate st name now).1 name now).2.1,
            (mode_gate_fields st name now).2.1, hcb]
        rcases hE : registry_execute st name kwargs now elapsed with e | out
        · exfalso
          simp only [registry_execute, hreg, hg1, hg2] at hE
          exact Except.noConfusion hE
        · refine ⟨out, rfl, ?_, ?_⟩
          · intro _
            simp only [registry_execute, hreg, hg1, hg2, hon, if_true] at hE
            have hinj := Except.ok.inj hE
            have hcbs : out.callbacks =
                [⟨name, kwargs, execute_result_string name b,
                  ⌊elapsed * 1000⌋, execute_success_flag b,
                  execute_error_field b⟩] := by
              rw [← hinj]
            refine ⟨hcbs, ?_⟩
            intro c hc
            rw [hcbs] at hc
            simp only [List.mem_singleton] at hc
            subst hc
            exact ⟨Int.floor_nonneg.mpr (mul_nonneg helap (by norm_num)),
              execute_success_iff b⟩
          · intro hga
            exact absurd ⟨hg1, hg2⟩ hga

theorem C1_execute_callback_witness :
    ∃ out, registry_execute normal_registry "delete_automation" [] 1000 1 =
        Except.ok out ∧
      (gates_allow normal_registry "delete_automation" 1000 →
        out.callbacks =
          [⟨"delete_automation", [],
            execute_result_string "delete_automation" (Except.ok "done"),
            ⌊(1:ℚ) * 1000⌋,
            execute_success_flag (Except.ok "done"),
            execute_error_field (Except.ok "done")⟩] ∧
        ∀ c ∈ out.callbacks,
          0 ≤ c.duration_ms ∧
            (c.success = true ↔
              ∃ r, (Except.ok "done" : ToolBehavior) = Except.ok r ∧
                (r = "" ∨ pyStartswith r "Error:" = false))) ∧
      (¬ gates_allow normal_registry "delete_automation" 1000 →
        out.callbacks = [] ∧ pyStartswith out.result "Error:" = true) :=
  C1_execute_callback normal_registry "delete_automation" (Except.ok "done")
    [] 1000 1 rfl rfl (by norm_num)

theorem pm_loop_appends (responses : ℕ → LLMResponse) (now elapsed : ℚ) :
    ∀ (fuel : ℕ) (st : RegistryState) (messages : List Msg) (idx : ℕ),
      ∃ suffix, (pm_loop st messages responses idx now elapsed fuel).2.1 =
        messages ++ suffix := by
  intro fuel
  induction fuel with
  | zero =>
      intro st messages idx
      exact ⟨[], (List.append_nil _).symm⟩
  | succ fuel ih =>
      intro st messages idx
      by_cases ht : (responses idx).tool_calls ≠ []
      · obtain ⟨s2, hs2⟩ := ih
          (execute_tool_calls st (responses idx).tool_calls now elapsed).2
          (messages ++
            [Msg.assistant (((responses idx).content).getD "")
              (responses idx).tool_calls] ++
            (execute_tool_calls st (responses idx).tool_calls now elapsed).1)
          (idx + 1)
        refine ⟨[Msg.assistant (((responses idx).content).getD "")
            (responses idx).tool_calls] ++
          (execute_tool_calls st (responses idx).tool_calls now elapsed).1 ++
          s2, ?_⟩
        simp only [pm_loop, if_pos ht]
        rw [hs2]
        simp [List.append_assoc]
      · rcases hc : (responses idx).content with _ | c
        · exact ⟨[], by simp [pm_loop, ht, hc]⟩
        · by_cases hcc : c ≠ ""
          · exact ⟨[Msg.assistant c []], by simp [pm_loop, ht, hc, hcc]⟩
          · exact ⟨[], by simp [pm_loop, ht, hc, hcc]⟩

theorem pm_loop_calls_le (responses : ℕ → LLMResponse) (now elapsed : ℚ) :
    ∀ (fuel : ℕ) (st : RegistryState) (messages : List Msg) (idx : ℕ),
      (pm_loop st messages responses idx now elapsed fuel).2.2 ≤ fuel := by
  intro fuel
  induction fuel with
  | zero =>
      intro st messages idx
      exact Nat.le_refl 0
  | succ fuel ih =>
      intro st messages idx
      by_cases ht : (responses idx).tool_calls ≠ []
      · simp only [pm_loop, if_pos ht]
        exact Nat.add_le_add_right (ih _ _ _) 1
      · rcases hc : (responses idx).content with _ | c
        · simp [pm_loop, ht, hc]
        · by_cases hcc : c ≠ ""
          · simp [pm_loop, ht, hc, hcc]
          · simp [pm_loop, ht, hc, hcc]

theorem pm_loop_all_tools (responses : ℕ → LLMResponse) (now elapsed : ℚ)
    (hall : ∀ i, (responses i).tool_calls ≠ []) :
    ∀ (fuel : ℕ) (st : RegistryState) (messages : List Msg) (idx : ℕ),
      (pm_loop st messages responses idx now elapsed fuel).1 =
          limit_response ∧
        (pm_loop st messages responses idx now elapsed fuel).2.2 = fuel := by
  intro fuel
  induction fuel with
  | zero =>
      intro st messages idx
      exact ⟨rfl, rfl⟩
  | succ fuel ih =>
      intro st messages idx
      have ht := hall idx
      obtain ⟨h1, h2⟩ := ih
        (execute_tool_calls st (responses idx).tool_calls now elapsed).2
        (messages ++
          [Msg.assistant (((responses idx).content).getD "")
            (responses idx).tool_calls] ++
          (execute_tool_calls st (responses idx).tool_calls now elapsed).1)
        (idx + 1)
      constructor
      · simp only [pm_loop, if_pos ht]
        exact h1
      · simp only [pm_loop, if_pos ht]
        rw [h2]

/-- Claim C3 counterexample: max_history = 2, a starting history of 3
user messages, and a provider that answers immediately with plain
content: after process_message the in-memory history holds 3 messages
(the trimmed tail plus the final assistant message), not exactly 2. -/
theorem C3_counterexample :
    ([Msg.user "a", Msg.user "b", Msg.user "c"] : List Msg).length > 2 ∧
      (process_message empty_registry
          [Msg.user "a", Msg.user "b", Msg.user "c"] "m" plain_responses
          2 10 0 0).2.1.length = 3 := by
  constructor
  · decide
  · rfl

/-- Claim C3, amended: the history is trimmed to max_history exactly
once per process_message, immediately after the user message is
appended — at that point it has exactly max_history entries and equals
the tail of the appended sequence — but the assistant and tool-result
messages the planning loop appends afterwards are not trimmed, so the
final history is that trimmed tail plus a suffix and can exceed
max_history. -/
theorem C3_trim_once (st : RegistryState) (history : List Msg)
    (u : String) (responses : ℕ → LLMResponse)
    (max_history max_tool_iterations : ℕ) (now elapsed : ℚ)
    (h : history.length > max_history) :
    (trim_history max_history (history ++ [Msg.user u])).length =
        max_history ∧
      trim_history max_history (history ++ [Msg.user u]) =
        (history ++ [Msg.user u]).drop (history.length + 1 - max_history) ∧
      ∃ suffix,
        (process_message st history u responses max_history
            max_tool_iterations now elapsed).2.1 =
          trim_history max_history (history ++ [Msg.user u]) ++ suffix := by
  have hlen : (history ++ [Msg.user u]).length = history.length + 1 := by
    simp
  have hgt : (history ++ [Msg.user u]).length > max_history := by
    rw [hlen]
    omega
  refine ⟨?_, ?_, ?_⟩
  · unfold trim_history
    rw [if_pos hgt, List.length_drop, hlen]
    omega
  · unfold trim_history
    rw [if_pos hgt, hlen]
  · unfold process_message
    exact pm_loop_appends responses now elapsed max_tool_iterations st _ 0

theorem C3_trim_once_witness :
    (trim_history 2 ([Msg.user "a", Msg.user "b", Msg.user "c"] ++
        [Msg.user "m"])).length = 2 ∧
      trim_history 2 ([Msg.user "a", Msg.user "b", Msg.user "c"] ++
          [Msg.user "m"]) =
        ([Msg.user "a", Msg.user "b", Msg.user "c"] ++
          [Msg.user "m"]).drop (([Msg.user "a", Msg.user "b",
            Msg.user "c"] : List Msg).length + 1 - 2) ∧
      ∃ suffix,
        (process_message empty_registry
            [Msg.user "a", Msg.user "b", Msg.user "c"] "m" plain_responses
            2 10 0 0).2.1 =
          trim_history 2 ([Msg.user "a", Msg.user "b", Msg.user "c"] ++
            [Msg.user "m"]) ++ suffix :=
  C3_trim_once empty_registry [Msg.user "a", Msg.user "b", Msg.user "c"]
    "m" plain_responses 2 10 0 0 (by decide)

/-- Claim C4: the planning loop makes at most max_tool_iterations
complete calls to the LLM for every possible stream of provider
responses, and when every response carries tool calls it makes exactly
max_tool_iterations calls and returns the fixed limit-reached
sentence. -/
theorem C4_loop_bound (st : RegistryState) (history : List Msg)
    (u : String) (responses : ℕ → LLMResponse)
    (max_history max_tool_iterations : ℕ) (now elapsed : ℚ) :
    (process_message st history u responses max_history
        max_tool_iterations now elapsed).2.2 ≤ max_tool_iterations ∧
      ((∀ i, (responses i).tool_calls ≠ []) →
        (process_message st history u responses max_history
            max_tool_iterations now elapsed).1 = limit_response ∧
          (process_message st history u responses max_history
              max_tool_iterations now elapsed).2.2 =
            max_tool_iterations) := by
  constructor
  · unfold process_message
    exact pm_loop_calls_le responses now elapsed max_tool_iterations st _ 0
  · intro hall
    unfold process_message
    exact pm_loop_all_tools responses now elapsed hall
      max_tool_iterations st _ 0

theorem C4_loop_bound_witness :
    (process_message empty_registry [] "m" tool_call_responses
        50 3 0 0).1 = limit_response ∧
      (process_message empty_registry [] "m" tool_call_responses
          50 3 0 0).2.2 = 3 :=
  (C4_loop_bound empty_registry [] "m" tool_call_responses 50 3 0 0).2
    (fun i => by simp [tool_call_responses])

end Mimir
